import Mathlib

/-!
Shallow embedding of the `repo-as-a-book` parser engine (the symbol
resolution, import-mapping, indexing, complexity and call-flow-unrolling
core), together with theorems settling the frozen claims about it.

Source files embedded:
* `parser_engine/core/repo_analyzer.py` (`RepoIndexer`)
* `parser_engine/language_parsers/python_parser.py` (`PythonParser`)
* `parser_engine/language_parsers/base_parser.py` (`BaseParser`)
* `parser_engine/models/data_models.py` (data carriers; the checked-in
  version predates the rest of the code, see the doc comments below)

The file is organised as: all definitions first, then all theorems.
-/

namespace RepoAsABook

/-! ## Python dict and string primitives

Python `dict` is modelled as an association list in insertion order:
`dictInsert` overwrites the value in place when the key is present
(exactly Python's `d[k] = v`, which keeps the original position), and
appends otherwise; `dictLookup` is `d.get(k)` / `k in d`.  -/

def dictInsert {α : Type} (k : String) (v : α) : List (String × α) → List (String × α)
  | [] => [(k, v)]
  | (k', v') :: rest => if k' = k then (k, v) :: rest else (k', v') :: dictInsert k v rest

def dictLookup {α : Type} (k : String) (d : List (String × α)) : Option α :=
  (d.find? (fun p => p.1 = k)).map (fun p => p.2)

def dictHasKey {α : Type} (k : String) (d : List (String × α)) : Bool :=
  (dictLookup k d).isSome

/-- The characters before the first occurrence of `sep`, and — when `sep`
occurs — the characters after it. -/
def splitCharsFirst (sep : Char) : List Char → List Char × Option (List Char)
  | [] => ([], none)
  | c :: cs =>
    if c = sep then ([], some cs)
    else
      let r := splitCharsFirst sep cs
      (c :: r.1, r.2)

/-- Python `name.split('.', 1)`: split at the first dot only (the code
only calls it when a dot is present; without one the name is returned
whole, mirroring the one-element list `split` would give). -/
def splitFirstDot (name : String) : String × String :=
  match splitCharsFirst '.' name.data with
  | (pre, some rest) => (String.mk pre, String.mk rest)
  | (_, none) => (name, "")

/-- Python `'.' in name`. -/
def containsDot (name : String) : Bool :=
  name.data.contains '.'

/-- Python `s.split('.')` (all occurrences): `''.split('.') == ['']`,
`'a.'.split('.') == ['a', '']`. -/
def splitCharsAll (sep : Char) : List Char → List (List Char)
  | [] => [[]]
  | c :: cs =>
    let r := splitCharsAll sep cs
    if c = sep then [] :: r
    else
      match r with
      | [] => [[c]]
      | h :: t => (c :: h) :: t

def splitDots (s : String) : List String :=
  (splitCharsAll '.' s.data).map String.mk

/-- Python dot-join of `parts`. -/
def joinDots : List String → String
  | [] => ""
  | [s] => s
  | s :: rest => s ++ "." ++ joinDots rest

/-! ## `RepoIndexer._resolve_call` (repo_analyzer.py)

`_resolve_call(self, function_name, function, module)` uses only
`module.imports_mapping`, `module.name`, key membership in
`self.symbol_table`, and the built-in-name set; the `function` argument
is unused.  The symbol table is passed here as its key list `st` (only
`in self.symbol_table` is ever evaluated), the built-in set as `bs`. -/

def resolveCall (bs : List String) (st : List String) (moduleName : String)
    (importsMapping : List (String × String)) (functionName : String) : Option String :=
  if containsDot functionName then
    let parts := splitFirstDot functionName
    match dictLookup parts.1 importsMapping with
    | some baseModule => some (baseModule ++ "." ++ parts.2)
    | none => some functionName
  else if bs.contains functionName then
    some functionName
  else
    let localName := moduleName ++ "." ++ functionName
    if st.contains localName then
      some localName
    else
      match dictLookup functionName importsMapping with
      | some importedModuleName =>
        let importedName := importedModuleName ++ "." ++ functionName
        if st.contains importedName then some importedName
        else if st.contains functionName then some functionName
        else none
      | none =>
        if st.contains functionName then some functionName
        else none

/-! Claim C1 states a fixed resolution precedence.  `resolveCallSpec`
transcribes the claim's own wording (a first-match rule chain) so that
C1 becomes the statement `resolveCall = resolveCallSpec`. -/

/-- The claim's rule chain for a bare (dot-free) name: built-in check,
then local scope, then import alias, then global fallback, else absent. -/
def resolveBareSpec (bs : List String) (st : List String) (moduleName : String)
    (importsMapping : List (String × String)) (name : String) : Option String :=
  (if bs.contains name then some name else none) <|>
  (if st.contains (moduleName ++ "." ++ name) then some (moduleName ++ "." ++ name) else none) <|>
  (match dictLookup name importsMapping with
   | some target => if st.contains (target ++ "." ++ name) then some (target ++ "." ++ name) else none
   | none => none) <|>
  (if st.contains name then some name else none)

/-- The claim's full precedence: a dotted name is split at the first dot
and either alias-expanded or returned unchanged; a bare name goes through
the `resolveBareSpec` chain. -/
def resolveCallSpec (bs : List String) (st : List String) (moduleName : String)
    (importsMapping : List (String × String)) (name : String) : Option String :=
  if containsDot name then
    let parts := splitFirstDot name
    match dictLookup parts.1 importsMapping with
    | some target => some (target ++ "." ++ parts.2)
    | none => some name
  else
    resolveBareSpec bs st moduleName importsMapping name

/-! ## `PythonParser._parse_imports`, relative-import branch (python_parser.py)

For `ast.ImportFrom` with `node.level > 0` the source computes
```
parts = parent_module.split('.')
base_path = parts[:-node.level] if node.level > 1 else parts
module = dot-join of (base_path + ([module] if module else []))
```
(when `parent_module` is non-empty; otherwise `module` stays `node.module or ''`),
then maps each `alias` to `f"{module}.{name}" if module else name`.
Only this `level > 0` branch is modelled; the absolute branch with its
filesystem probing is outside the claims. `names` carries each alias as
`(name, asname?)`. -/

def relativeBasePath (level : Nat) (parentModule : String) : List String :=
  let parts := splitDots parentModule
  if level > 1 then parts.take (parts.length - level) else parts

def relativeImportModule (level : Nat) (nodeModule parentModule : String) : String :=
  if parentModule ≠ "" then
    joinDots (relativeBasePath level parentModule ++
      (if nodeModule ≠ "" then [nodeModule] else []))
  else nodeModule

def parseRelativeImportFrom (level : Nat) (nodeModule : String)
    (names : List (String × Option String)) (parentModule : String) :
    List (String × String) :=
  let module := relativeImportModule level nodeModule parentModule
  names.foldl (fun acc p =>
    dictInsert (p.2.getD p.1)
      (if module ≠ "" then module ++ "." ++ p.1 else p.1) acc) []

/-- The absolute base exactly as claim C2 words it: the enclosing
module's dotted path where `L = 1` keeps the full path and `L > 1` drops
its last `L − 1` segments. -/
def claimedBasePath (level : Nat) (parentModule : String) : List String :=
  let parts := splitDots parentModule
  if level > 1 then parts.take (parts.length - (level - 1)) else parts

/-! ## Python AST nodes

A Python AST node is its `ast` class (`NodeKind`), payload data, and its
child nodes (`ast.iter_child_nodes`); `ast.walk` visits a node and all
its descendants.  For a `BoolOp` the children are its operand
expressions, so `len(node.values)` is the number of children. -/

inductive NodeKind where
  | ifK | whileK | forK | asyncForK | exceptHandlerK | withK | asyncWithK
  | boolOpK
  | functionDefK | asyncFunctionDefK | classDefK
  | importFromK
  | otherK
deriving DecidableEq, Repr

/-- Payload of a node: only what `_parse_class` / `_parse_function` read.
`args` holds `(arg.arg, annotation?)`; `decorators` and `baseClasses`
hold the already-rendered strings `_parse_decorators` / `_get_name`
produce (their rendering is outside every claim). -/
structure NodeInfo where
  name : String := ""
  args : List (String × Option String) := []
  returns : Option String := none
  decorators : List String := []
  baseClasses : List String := []
  startLine : Nat := 0
  endLine : Nat := 0
  importLevel : Nat := 0
  importModule : String := ""
  importNames : List (String × Option String) := []
deriving DecidableEq, Repr

inductive PyNode where
  | node (kind : NodeKind) (info : NodeInfo) (children : List PyNode)

def PyNode.kind : PyNode → NodeKind
  | .node k _ _ => k

def PyNode.info : PyNode → NodeInfo
  | .node _ i _ => i

def PyNode.children : PyNode → List PyNode
  | .node _ _ cs => cs

/-! ## `PythonParser._calculate_complexity` (python_parser.py)

`complexity = 1`, then for every node `ast.walk` reaches from the
function node (the whole subtree, nested scopes included): `+1` for
`If/While/For/AsyncFor/ExceptHandler/With/AsyncWith`, `+len(values)-1`
for `BoolOp`. -/

def complexityWeight (k : NodeKind) (nChildren : Nat) : Nat :=
  match k with
  | .ifK | .whileK | .forK | .asyncForK | .exceptHandlerK | .withK | .asyncWithK => 1
  | .boolOpK => nChildren - 1
  | _ => 0

mutual

/-- Total branch weight of a node's whole subtree (the node itself
included), i.e. what the `for child in ast.walk(node)` loop adds. -/
def walkWeight : PyNode → Nat
  | .node k _ cs => complexityWeight k cs.length + walkWeightList cs

def walkWeightList : List PyNode → Nat
  | [] => 0
  | n :: rest => walkWeight n + walkWeightList rest

end

def calculateComplexity (n : PyNode) : Nat :=
  1 + walkWeight n

/-- A node's own weight (no descendants). -/
def selfWeight : PyNode → Nat
  | .node k _ cs => complexityWeight k cs.length

mutual

/-- All nodes of a subtree, the root first (`ast.walk` reaches exactly
these). -/
def allNodes : PyNode → List PyNode
  | .node k i cs => .node k i cs :: allNodesList cs

def allNodesList : List PyNode → List PyNode
  | [] => []
  | n :: rest => allNodes n ++ allNodesList rest

end

mutual

/-- Branch weight counted as claim C8 words it: constructs inside a
nested function scope count toward the innermost function only, so the
walk stops at nested `FunctionDef`/`AsyncFunctionDef` boundaries. -/
def claimedScopedWeight : PyNode → Nat
  | .node k _ cs =>
    complexityWeight k cs.length +
      (if k = .functionDefK ∨ k = .asyncFunctionDefK then 0
       else claimedScopedWeightList cs)

def claimedScopedWeightList : List PyNode → Nat
  | [] => 0
  | n :: rest => claimedScopedWeight n + claimedScopedWeightList rest

end

/-- Claim C8's complexity: base 1 plus the scoped count over the
function's body (the measured function's own scope is walked). -/
def claimedComplexity : PyNode → Nat
  | .node _ _ cs => 1 + claimedScopedWeightList cs

/-! ## Data carriers (data_models.py)

Modelled from the spec: the checked-in `models/data_models.py` predates
the rest of the source — it lacks `FunctionCallElement` and the
`imports_mapping`, `body`, `error`, `qualified_name`, `module` and
`function_calls` fields that `python_parser.py`, `base_parser.py`,
`repo_analyzer.py` and the test suite all construct and read.  The
carriers below take those fields from §3 of the spec ("optional parse
error", "import-alias table", "raw source text", the two name forms of a
Function, the Call-reference shape) and from the constructor calls in
the src/ callers.  Filesystem paths, docstrings and nested inner classes
(never indexed, touched by no claim) are omitted; the `module`
back-reference is replaced by passing the owning module explicitly. -/

structure FunctionCallElement where
  name : String
  module_name : Option String := none
  line_number : Nat := 0
  resolved_name : Option String := none
deriving DecidableEq, Repr

structure FunctionElement where
  name : String
  qualified_name : Option String := none
  parameters : List String := []
  return_type : String := "Any"
  decorators : List String := []
  complexity : Nat := 0
  start_line : Nat := 0
  end_line : Nat := 0
  is_async : Bool := false
  function_calls : List FunctionCallElement := []
deriving DecidableEq, Repr

structure ClassElement where
  name : String
  qualified_name : Option String := none
  methods : List FunctionElement := []
  base_classes : List String := []
  decorators : List String := []
  start_line : Nat := 0
  end_line : Nat := 0
deriving DecidableEq, Repr

structure ModuleElement where
  name : String
  language : String := "Python"
  classes : List ClassElement := []
  functions : List FunctionElement := []
  imports : List String := []
  imports_mapping : List (String × String) := []
  error : Option String := none
  body : String := ""
deriving DecidableEq, Repr

/-! ## `PythonParser.parse_file` and element extraction (python_parser.py)

`ast.parse` and the path → module-name derivation are host-environment
effects; `parse_file` is embedded as a function of their outcome: the
module name and parent-package name already derived from the path, and
either the parsed top-level statement list or the syntax error.  Import
payloads ride on `NodeInfo` via `importLevel`/`importModule`/
`importNames`; only relative (`level > 0`) `ImportFrom` statements are
modelled (the absolute branch with its filesystem probing is outside
every claim, such nodes are carried as `otherK`). -/

def joinCommaSpace : List String → String
  | [] => ""
  | [s] => s
  | s :: rest => s ++ ", " ++ joinCommaSpace rest

/-- `PythonParser._get_annotation_type`: `None ↦ 'Any'`, otherwise the
unparsed annotation string. -/
def getAnnotationType : Option String → String
  | none => "Any"
  | some s => s

/-- `PythonParser._parse_function`: parameter descriptors
`name: type-label`, the simple dotted name (symbol-table key) and the
full qualified name carrying the `(params) -> return` signature, and the
cyclomatic complexity of the node's subtree. -/
def parseFunction (n : PyNode) (parentName : String) : FunctionElement :=
  let params := n.info.args.map (fun a => a.1 ++ ": " ++ getAnnotationType a.2)
  let returnType := getAnnotationType n.info.returns
  { name := parentName ++ "." ++ n.info.name
    qualified_name := some (parentName ++ "." ++ n.info.name ++ "(" ++
      joinCommaSpace params ++ ") -> " ++ returnType)
    parameters := params
    return_type := returnType
    decorators := n.info.decorators
    complexity := calculateComplexity n
    start_line := n.info.startLine
    end_line := n.info.endLine
    is_async := n.kind == .asyncFunctionDefK
    function_calls := [] }

/-- `PythonParser._parse_class`: the dotted class name, and each
`FunctionDef`/`AsyncFunctionDef` child parsed as a method under it. -/
def parseClass (n : PyNode) (parentName : String) : ClassElement :=
  let className := parentName ++ "." ++ n.info.name
  { name := className
    methods := (n.children.filter (fun c =>
      c.kind == .functionDefK || c.kind == .asyncFunctionDefK)).map
      (fun c => parseFunction c className)
    base_classes := n.info.baseClasses
    decorators := n.info.decorators
    start_line := n.info.startLine
    end_line := n.info.endLine }

/-- One step of `parse_file`'s top-level `ast.iter_child_nodes` loop. -/
def moduleStep (moduleName parentModule : String) (m : ModuleElement)
    (n : PyNode) : ModuleElement :=
  match n.kind with
  | .classDefK => { m with classes := m.classes ++ [parseClass n moduleName] }
  | .functionDefK | .asyncFunctionDefK =>
    { m with functions := m.functions ++ [parseFunction n moduleName] }
  | .importFromK =>
    let imports := parseRelativeImportFrom n.info.importLevel n.info.importModule
      n.info.importNames parentModule
    { m with imports := m.imports ++ imports.map Prod.fst
             imports_mapping := imports.foldl
               (fun acc p => dictInsert p.1 p.2 acc) m.imports_mapping }
  | _ => m

/-- The `try` body of `parse_file` after a successful `ast.parse`. -/
def parseFileOk (moduleName parentModule content : String)
    (topLevel : List PyNode) : ModuleElement :=
  topLevel.foldl (moduleStep moduleName parentModule)
    { name := moduleName, language := "Python", body := content }

/-- `BaseParser._create_error_module`: name from the path, the error
string, and every element list left at its (empty) default. -/
def createErrorModule (pathName language err : String) : ModuleElement :=
  { name := pathName, language := language, error := some err }

/-- `PythonParser.parse_file`: on a successful parse, the extracted
module; on a syntax error, the error module.  The function is total —
the `except` clause means no exception escapes. -/
def parseFile (pathName moduleName parentModule content : String)
    (parsed : Except String (List PyNode)) : ModuleElement :=
  match parsed with
  | .ok topLevel => parseFileOk moduleName parentModule content topLevel
  | .error e => createErrorModule pathName "Python" e

/-! ## `RepoIndexer` (repo_analyzer.py)

`index_repository` = build phase (`_build_symbol_table`: assign each
class/method/function its qualified name — overwriting it with the
element's *simple* `name` — and insert it under that simple name) then
resolve phase (`_resolve_function_calls`: for every function and method,
re-extract its call sites and resolve each one).  Python-object mutation
becomes a pure transformation of the module list.
`_extract_function_calls` re-parses a source slice through `ast`, a host
effect, so it is taken as the function argument `extract`; its failure
mode (empty call list) is one of `extract`'s possible values. -/

inductive SymbolEntry where
  | cls (c : ClassElement)
  | fn (f : FunctionElement)
deriving DecidableEq, Repr

def entryName : SymbolEntry → String
  | .cls c => c.name
  | .fn f => f.name

/-- The (key, entry) pairs `_build_symbol_table` writes for one class:
the class itself under its simple name, then each method under its
simple name, every `qualified_name` overwritten with that simple name
(the stored class aliases its mutated methods). -/
def classInsertions (c : ClassElement) : List (String × SymbolEntry) :=
  let methods := c.methods.map (fun mth => { mth with qualified_name := some mth.name })
  let c' := { c with qualified_name := some c.name, methods := methods }
  (c'.name, .cls c') :: methods.map (fun mth => (mth.name, .fn mth))

def moduleInsertions (m : ModuleElement) : List (String × SymbolEntry) :=
  (m.classes.map classInsertions).flatten ++
    m.functions.map (fun f => (f.name, .fn { f with qualified_name := some f.name }))

/-- All symbol-table writes of `_build_symbol_table` in chronological
order. -/
def symbolInsertions (modules : List ModuleElement) : List (String × SymbolEntry) :=
  (modules.map moduleInsertions).flatten

/-- The symbol table after `_build_symbol_table`: the chronological
writes folded through Python dict assignment. -/
def buildSymbolTable (modules : List ModuleElement) : List (String × SymbolEntry) :=
  (symbolInsertions modules).foldl (fun d p => dictInsert p.1 p.2 d) []

/-- The key set the resolve phase tests with `in self.symbol_table`. -/
def symbolTableKeys (modules : List ModuleElement) : List String :=
  (symbolInsertions modules).map Prod.fst

/-- Build-phase effect on one function: `qualified_name` is overwritten
with the simple `name`. -/
def buildPhaseFunction (f : FunctionElement) : FunctionElement :=
  { f with qualified_name := some f.name }

def buildPhaseClass (c : ClassElement) : ClassElement :=
  { c with qualified_name := some c.name, methods := c.methods.map buildPhaseFunction }

def buildPhaseModule (m : ModuleElement) : ModuleElement :=
  { m with classes := m.classes.map buildPhaseClass
           functions := m.functions.map buildPhaseFunction }

/-- `_resolve_function_calls_in_function`: replace `function_calls` with
the freshly extracted call sites, each with `resolved_name` written once
by `_resolve_call`. -/
def resolveFunctionCalls
    (extract : FunctionElement → ModuleElement → List FunctionCallElement)
    (bs st : List String) (m : ModuleElement) (f : FunctionElement) :
    FunctionElement :=
  { f with function_calls := (extract f m).map (fun call =>
      { call with resolved_name := resolveCall bs st m.name m.imports_mapping call.name }) }

def resolvePhaseModule
    (extract : FunctionElement → ModuleElement → List FunctionCallElement)
    (bs st : List String) (m : ModuleElement) : ModuleElement :=
  { m with functions := m.functions.map (resolveFunctionCalls extract bs st m)
           classes := m.classes.map (fun c =>
             { c with methods := c.methods.map (resolveFunctionCalls extract bs st m) }) }

/-- `RepoIndexer.index_repository`'s effect on the module list: build
phase on every module, then the resolve phase against the symbol-table
keys. -/
def indexRepository
    (extract : FunctionElement → ModuleElement → List FunctionCallElement)
    (bs : List String) (modules : List ModuleElement) : List ModuleElement :=
  let st := symbolTableKeys modules
  (modules.map buildPhaseModule).map (resolvePhaseModule extract bs st)

/-! ## Call-Flow Unroller

Modelled from the spec: `MainParser.build_call_graph` /
`display_function_source_and_calls` are not under src/ (only their
caller `main.py` is), so the unroller is modelled from §4.5 of the spec:
per invocation on symbol `S` — cycle (S already on the visit stack:
one `(cycle)` line showing the path from the first occurrence of `S`
back to itself, no recursion), unknown (no symbol-table entry: one
"unresolved or built-in" leaf), or expand (push `S`, print the
declaration header, then each source line followed by a `-> calls`
marker and recursion for each resolved call on it, `(unresolved)`
markers for unresolved ones).  Output is the event sequence; the
position-sensitive indentation width of §4.5 decorates the printed text
only and is not modelled.  `fuel` bounds the recursion depth so the
procedure is total by construction; the cycle branch consuming no fuel
is what the termination claim is about. -/

structure UnrollEntry where
  header : String
  lines : List (String × List (Option String))
deriving DecidableEq, Repr

inductive RenderEvent where
  | headerLine (sym : String) (text : String)
  | srcLine (sym : String) (text : String)
  | callMarker (callee : String)
  | unresolvedMarker
  | cycleMarker (path : List String)
  | unknownLeaf (sym : String)
  | fuelOut
deriving DecidableEq, Repr

/-- The path from the first occurrence of `s` on the visit stack back to
`s` itself. -/
def cyclePath (s : String) (stack : List String) : List String :=
  stack.dropWhile (fun t => t != s) ++ [s]

def unrollFuel (tbl : List (String × UnrollEntry)) :
    Nat → String → List String → List RenderEvent
  | 0, _, _ => [.fuelOut]
  | fuel + 1, s, stack =>
    if stack.contains s then [.cycleMarker (cyclePath s stack)]
    else
      match dictLookup s tbl with
      | none => [.unknownLeaf s]
      | some entry =>
        let stack' := stack ++ [s]
        .headerLine s entry.header ::
          (entry.lines.map (fun line =>
            .srcLine s line.1 ::
              (line.2.map (fun c =>
                match c with
                | some r => .callMarker r :: unrollFuel tbl fuel r stack'
                | none => [.unresolvedMarker])).flatten)).flatten

/-- The `A → B → A` call graph of claim C9. -/
def tblABA : List (String × UnrollEntry) :=
  [("A", ⟨"def A():", [("    B()", [some "B"])]⟩),
   ("B", ⟨"def B():", [("    A()", [some "A"])]⟩)]

def isCycleMarker : RenderEvent → Bool
  | .cycleMarker _ => true
  | _ => false

def isBodyLineOf (sym : String) : RenderEvent → Bool
  | .srcLine s _ => s == sym
  | _ => false

/-! ## Concrete instances used by counterexamples and witnesses -/

/-- `def f(x: int): ...` at module top level. -/
def funcNodeF : PyNode :=
  .node .functionDefK { name := "f", args := [("x", some "int")], startLine := 1, endLine := 2 } []

/-- The module `m` holding only `funcNodeF`, as extracted by `parse_file`. -/
def moduleM : ModuleElement :=
  parseFileOk "m" "" "def f(x: int):\n    pass" [funcNodeF]

/-- A module `alpha` declaring a function whose simple qualified name is
`x.run`. -/
def moduleAlpha : ModuleElement :=
  { name := "alpha", functions := [{ name := "x.run", complexity := 1 }] }

/-- A different module `beta` also declaring a function named `x.run`. -/
def moduleBeta : ModuleElement :=
  { name := "beta", functions := [{ name := "x.run", complexity := 2 }] }

/-- An outer function whose only content is a nested `def` containing an
`if`: the construct sits in a nested scope. -/
def outerWithNestedIf : PyNode :=
  .node .functionDefK { name := "outer" }
    [.node .functionDefK { name := "inner" } [.node .ifK {} []]]

/-! ## Sanity checks of the embedding against the repository's own tests -/

example : resolveCall ["print"] [] "m" [] "print" = some "print" := by decide
example : resolveCall [] ["m.f"] "m" [] "f" = some "m.f" := by decide
example : resolveCall [] ["a.f"] "m" [("f", "a")] "f" = some "a.f" := by decide
example : resolveCall [] ["f"] "m" [] "f" = some "f" := by decide
example : resolveCall [] [] "m" [] "nonexistent" = none := by decide
example : resolveCall [] [] "m" [("a", "pkg.a")] "a.g" = some "pkg.a.g" := by decide
example : resolveCall [] [] "m" [] "os.path.join" = some "os.path.join" := by decide
example : resolveCall [] [] "m" [("function1", "module1.function1")]
    "module1.function1" = some "module1.function1" := by decide
example : splitFirstDot "a.b.c" = ("a", "b.c") := by decide
example : containsDot "abc" = false := by decide
example : splitDots "pkg.parent.child" = ["pkg", "parent", "child"] := by decide
example : joinDots ["pkg", "uncle"] = "pkg.uncle" := by decide
example : parseRelativeImportFrom 1 "" [("sibling", none)] "pkg.parent" =
    [("sibling", "pkg.parent.sibling")] := by decide
example : parseRelativeImportFrom 2 "" [("uncle", none)] "pkg.parent.child" =
    [("uncle", "pkg.uncle")] := by decide
example : parseRelativeImportFrom 1 "cousin" [("func", none)] "pkg.parent" =
    [("func", "pkg.parent.cousin.func")] := by decide

/-! ## Claim C1 — resolution precedence -/

/-- C1: for every call name, owning module and symbol table,
`_resolve_call` applies exactly the claimed fixed precedence: dotted
names are split at the first dot and alias-expanded or returned
unchanged, bare names go through built-in check, local scope, import
alias, then global fallback, and are otherwise unresolved
(`resolveCall` coincides with the rule chain `resolveCallSpec`
transcribed from the claim). -/
theorem resolveCall_eq_resolveCallSpec (bs st : List String) (m : String)
    (im : List (String × String)) (name : String) :
    resolveCall bs st m im name = resolveCallSpec bs st m im name := by
  unfold resolveCall resolveCallSpec resolveBareSpec
  by_cases hd : containsDot name
  · simp [hd]
  · simp only [hd, Bool.false_eq_true, if_false]
    by_cases hb : name ∈ bs
    · simp [hb]
    · by_cases hl : (m ++ "." ++ name) ∈ st
      · simp [hb, hl]
      · cases him : dictLookup name im with
        | some target =>
          by_cases hi : (target ++ "." ++ name) ∈ st
          · simp [hb, hl, him, hi]
          · by_cases hg : name ∈ st <;> simp [hb, hl, him, hi, hg]
        | none =>
          by_cases hg : name ∈ st <;> simp [hb, hl, him, hg]

/-! ## Claim C7 — bare-name round trip -/

/-- C7 as stated is false: a dot-free call name that is no import alias
and is itself a symbol-table key does **not** always resolve to itself —
when `<owning-module>.<name>` is also a symbol-table key, the local-scope
rule fires first.  Here `f` in module `m` with symbol table
`{f, m.f}` resolves to `m.f`, not to `f`. -/
theorem resolveCall_selfResolution_counterexample :
    containsDot "f" = false ∧
    dictLookup "f" ([] : List (String × String)) = none ∧
    (["f", "m.f"] : List String).contains "f" = true ∧
    resolveCall [] ["f", "m.f"] "m" [] "f" = some "m.f" ∧
    (some "m.f" : Option String) ≠ some "f" := by
  refine ⟨by decide, by decide, by decide, by decide, by decide⟩

/-- C7 amended: a call whose literal name contains no dot, is not an import
alias of its module, exactly equals an existing symbol-table key,
**and whose local form `<owning-module>.<name>` is not a symbol-table
key**, always resolves to that same literal name. -/
theorem resolveCall_selfResolution (bs st : List String) (m : String)
    (im : List (String × String)) (name : String)
    (hdot : containsDot name = false)
    (halias : dictLookup name im = none)
    (hglobal : name ∈ st)
    (hlocal : (m ++ "." ++ name) ∉ st) :
    resolveCall bs st m im name = some name := by
  unfold resolveCall
  by_cases hb : name ∈ bs <;>
    simp [hdot, halias, hglobal, hlocal, hb]

theorem resolveCall_selfResolution_witness :
    resolveCall ["print"] ["f"] "m" [] "f" = some "f" :=
  resolveCall_selfResolution ["print"] ["f"] "m" [] "f"
    (by decide) (by decide) (by decide) (by decide)

/-! ## Claim C10 — dotted names always resolve -/

/-- C10: a dotted call name always resolves (never `none`): the result
is the alias expansion of its first segment when that segment is an import
alias, and the dotted literal itself otherwise; the symbol table
and the built-in set are never consulted (the result is independent of
both). -/
theorem resolveCall_dotted_total (bs bs' st st' : List String) (m : String)
    (im : List (String × String)) (name : String)
    (hdot : containsDot name = true) :
    resolveCall bs st m im name =
      some (match dictLookup (splitFirstDot name).1 im with
            | some baseModule => baseModule ++ "." ++ (splitFirstDot name).2
            | none => name) ∧
    resolveCall bs st m im name = resolveCall bs' st' m im name := by
  unfold resolveCall
  cases him : dictLookup (splitFirstDot name).1 im <;> simp [hdot, him]

theorem resolveCall_dotted_total_witness :
    resolveCall [] [] "m" [("a", "pkg.a")] "a.g" = some "pkg.a.g" ∧
    resolveCall [] [] "m" [("a", "pkg.a")] "a.g" =
      resolveCall ["print"] ["zzz"] "m" [("a", "pkg.a")] "a.g" :=
  resolveCall_dotted_total [] ["print"] [] ["zzz"] "m" [("a", "pkg.a")] "a.g" (by decide)

/-! ## Claims C2 and C4 — relative-import level computation -/

lemma splitCharsAll_ne_nil (sep : Char) (cs : List Char) :
    splitCharsAll sep cs ≠ [] := by
  cases cs with
  | nil => simp [splitCharsAll]
  | cons c cs =>
    simp only [splitCharsAll]
    split
    · simp
    · split
      · simp
      · simp

lemma splitDots_length_pos (s : String) : 0 < (splitDots s).length := by
  have h := splitCharsAll_ne_nil '.' s.data
  unfold splitDots
  simpa [List.length_pos] using h

/-- C2 as stated is false in its general rule: for `L > 1` the code drops
the last `L` segments (`parts[:-level]`), not `L − 1`.  At
`L = 2` inside `pkg.parent.child` the claimed rule keeps
`pkg.parent` while the code computes base `pkg`; the claim's own
example mapping `uncle ↦ pkg.uncle` is the code's behavior and already
contradicts the claimed drop count. -/
theorem relativeImport_dropCount_counterexample :
    relativeBasePath 2 "pkg.parent.child" = ["pkg"] ∧
    claimedBasePath 2 "pkg.parent.child" = ["pkg", "parent"] ∧
    relativeBasePath 2 "pkg.parent.child" ≠ claimedBasePath 2 "pkg.parent.child" ∧
    parseRelativeImportFrom 2 "" [("uncle", none)] "pkg.parent.child" =
      [("uncle", "pkg.uncle")] := by
  refine ⟨by decide, by decide, by decide, by decide⟩

/-- C2 amended: for a relative import with dot level `L ≥ 1`, the
computed absolute base is the enclosing dotted path with its last `L`
segments dropped when `L > 1`, and the full path when `L = 1`; in
particular `from .. import uncle` inside `pkg.parent.child` produces the
mapping `uncle ↦ pkg.uncle`. -/
theorem relativeImport_base (level : Nat) (parentModule : String)
    (h1 : 1 ≤ level) :
    relativeBasePath level parentModule =
      (if level = 1 then splitDots parentModule
       else (splitDots parentModule).rdrop level) ∧
    parseRelativeImportFrom 2 "" [("uncle", none)] "pkg.parent.child" =
      [("uncle", "pkg.uncle")] := by
  refine ⟨?_, by decide⟩
  by_cases he : level = 1
  · subst he
    simp [relativeBasePath]
  · have h2 : 1 < level := lt_of_le_of_ne h1 (Ne.symm he)
    simp [relativeBasePath, List.rdrop, h2, he]

theorem relativeImport_base_witness :
    relativeBasePath 2 "pkg.parent.child" =
      (if 2 = 1 then splitDots "pkg.parent.child"
       else (splitDots "pkg.parent.child").rdrop 2) ∧
    parseRelativeImportFrom 2 "" [("uncle", none)] "pkg.parent.child" =
      [("uncle", "pkg.uncle")] :=
  relativeImport_base 2 "pkg.parent.child" (by decide)

/-- C4 as stated is false: when the dot level exceeds the number of
available path segments the code raises nothing (no
`ImportResolutionError` exists anywhere in the source) and does not skip
the mapping — the base silently becomes empty and the alias is still
mapped.  Here level 3 inside the two-segment path `pkg.parent` still
produces the mapping `x ↦ x`. -/
theorem relativeImport_levelOverflow_counterexample :
    (splitDots "pkg.parent").length < 3 ∧
    parseRelativeImportFrom 3 "" [("x", none)] "pkg.parent" = [("x", "x")] ∧
    parseRelativeImportFrom 3 "" [("x", none)] "pkg.parent" ≠ [] := by
  refine ⟨by decide, by decide, by decide⟩

/-- C4 amended: when the dot level exceeds the number of available path
segments, no error is raised and the import mapping is still produced —
the base path becomes empty, so the alias maps to the bare imported name
(prefixed by the `from`-module when one is given), and extraction
continues. -/
theorem relativeImport_levelOverflow (level : Nat)
    (nodeModule parentModule name : String) (asname : Option String)
    (hp : parentModule ≠ "")
    (hover : (splitDots parentModule).length < level) :
    parseRelativeImportFrom level nodeModule [(name, asname)] parentModule =
      [(asname.getD name,
        if nodeModule ≠ "" then nodeModule ++ "." ++ name else name)] := by
  have hpos := splitDots_length_pos parentModule
  have h2 : 1 < level := lt_of_le_of_lt hpos hover
  have hz : (splitDots parentModule).length - level = 0 :=
    Nat.sub_eq_zero_of_le (le_of_lt hover)
  unfold parseRelativeImportFrom relativeImportModule relativeBasePath
  by_cases hm : nodeModule = "" <;>
    simp [hp, h2, hz, hm, joinDots, dictInsert]

theorem relativeImport_levelOverflow_witness :
    parseRelativeImportFrom 3 "" [("x", none)] "pkg.parent" = [("x", "x")] := by
  have h := relativeImport_levelOverflow 3 "" "pkg.parent" "x" none
    (by decide) (by decide)
  simpa using h

/-! ## Claim C3 — syntax errors yield an error module, not an exception -/

/-- C3: on a file-level syntax error `parse_file` returns (it is a total
function of the parse outcome — the `except` clause lets no exception
escape) `_create_error_module`'s module: no classes, no functions, and
the error string describing the failure. -/
theorem parseFile_syntaxError (pathName moduleName parentModule content e : String) :
    parseFile pathName moduleName parentModule content (.error e) =
      createErrorModule pathName "Python" e ∧
    (parseFile pathName moduleName parentModule content (.error e)).classes = [] ∧
    (parseFile pathName moduleName parentModule content (.error e)).functions = [] ∧
    (parseFile pathName moduleName parentModule content (.error e)).error = some e :=
  ⟨rfl, rfl, rfl, rfl⟩

/-! ## Claim C8 — cyclomatic complexity -/

/-- `ast.walk`'s loop total equals the sum of every reached node's own
weight. -/
lemma walkWeight_eq_sum (n : PyNode) :
    walkWeight n = ((allNodes n).map selfWeight).sum :=
  @PyNode.rec (fun n => walkWeight n = ((allNodes n).map selfWeight).sum)
    (fun l => walkWeightList l = ((allNodesList l).map selfWeight).sum)
    (fun k i cs ih => by simp [walkWeight, allNodes, selfWeight, ih])
    (by simp [walkWeightList, allNodesList])
    (fun h t ih1 ih2 => by simp [walkWeightList, allNodesList, ih1, ih2])
    n

/-- C8 as stated is false in its scoping rule: a construct inside a
nested function scope counts toward the **enclosing** extracted function
(`ast.walk` does not stop at nested `def` boundaries; nested functions
are not extracted separately).  An outer function whose only construct
is an `if` inside a nested `def` has code complexity 2, while the
claim's innermost-only rule gives 1. -/
theorem calculateComplexity_nestedScope_counterexample :
    calculateComplexity outerWithNestedIf = 2 ∧
    claimedComplexity outerWithNestedIf = 1 ∧
    (2 : Nat) ≠ 1 := by
  refine ⟨by decide, by decide, by decide⟩

/-- C8 amended: the computed cyclomatic complexity equals 1 plus one per
conditional/loop/exception-handler/context-manager construct plus
`k − 1` per boolean expression of `k` operands, counted over **every**
node `ast.walk` reaches from the function node — constructs inside
nested scopes count toward the enclosing extracted function;
consequently every function's complexity is at least 1. -/
theorem calculateComplexity_spec (n : PyNode) :
    calculateComplexity n = 1 + ((allNodes n).map selfWeight).sum ∧
    1 ≤ calculateComplexity n := by
  constructor
  · simp [calculateComplexity, walkWeight_eq_sum]
  · simp [calculateComplexity]

/-! ## Claim C6 — symbol-table keys collide, last indexed wins -/

lemma dictLookup_dictInsert_self {α : Type} (k : String) (v : α)
    (d : List (String × α)) :
    dictLookup k (dictInsert k v d) = some v := by
  induction d with
  | nil => simp [dictInsert, dictLookup]
  | cons p rest ih =>
    obtain ⟨k', v'⟩ := p
    by_cases h : k' = k
    · simp [dictInsert, dictLookup, h]
    · simp only [dictInsert, h, if_false, dictLookup, List.find?_cons,
        decide_eq_true_eq, if_neg]
      simpa [dictLookup] using ih

lemma dictLookup_dictInsert_ne {α : Type} (k k' : String) (v : α)
    (d : List (String × α)) (h : k' ≠ k) :
    dictLookup k (dictInsert k' v d) = dictLookup k d := by
  induction d with
  | nil => simp [dictInsert, dictLookup, h]
  | cons p rest ih =>
    obtain ⟨k'', v''⟩ := p
    by_cases h2 : k'' = k'
    · subst h2
      simp [dictInsert, dictLookup, h]
    · by_cases h3 : k'' = k
      · simp [dictInsert, dictLookup, h2, h3, Ne.symm h]
      · simp only [dictInsert, h2, if_false, dictLookup, List.find?_cons,
          h3, decide_eq_true_eq, if_neg]
        simpa [dictLookup] using ih

/-- Folding a write log through Python dict assignment looks up to the
*most recent* write of the key (searching the log from its end), falling
back to the starting dictionary. -/
lemma dictLookup_foldl_dictInsert {α : Type} (seq : List (String × α))
    (d : List (String × α)) (k : String) :
    dictLookup k (seq.foldl (fun acc p => dictInsert p.1 p.2 acc) d) =
      ((seq.reverse.find? (fun q => q.1 = k)).map Prod.snd <|> dictLookup k d) := by
  induction seq generalizing d with
  | nil => simp
  | cons p rest ih =>
    obtain ⟨k', v⟩ := p
    simp only [List.foldl_cons, List.reverse_cons]
    rw [ih]
    by_cases h : k' = k
    · subst h
      rw [dictLookup_dictInsert_self]
      cases hfr : rest.reverse.find? (fun q => q.1 = k') with
      | none => simp [List.find?_append, hfr]
      | some q => simp [List.find?_append, hfr]
    · rw [dictLookup_dictInsert_ne _ _ _ _ h]
      cases hfr : rest.reverse.find? (fun q => q.1 = k) with
      | none => simp [List.find?_append, hfr, h]
      | some q => simp [List.find?_append, hfr, h]

lemma mem_dictInsert {α : Type} (p : String × α) (k : String) (v : α)
    (d : List (String × α)) (h : p ∈ dictInsert k v d) :
    p = (k, v) ∨ p ∈ d := by
  induction d with
  | nil => simpa [dictInsert] using h
  | cons q rest ih =>
    obtain ⟨k', v'⟩ := q
    by_cases h2 : k' = k
    · simp [dictInsert, h2] at h
      rcases h with h | h
      · exact Or.inl (by simp [h])
      · exact Or.inr (by simp [h])
    · simp [dictInsert, h2] at h
      rcases h with h | h
      · exact Or.inr (by simp [h])
      · rcases ih h with h3 | h3
        · exact Or.inl h3
        · exact Or.inr (by simp [h3])

lemma mem_foldl_dictInsert {α : Type} (seq : List (String × α))
    (d : List (String × α)) (p : String × α)
    (h : p ∈ seq.foldl (fun acc q => dictInsert q.1 q.2 acc) d) :
    p ∈ seq ∨ p ∈ d := by
  induction seq generalizing d with
  | nil => exact Or.inr h
  | cons q rest ih =>
    simp only [List.foldl_cons] at h
    rcases ih _ h with h2 | h2
    · exact Or.inl (List.mem_cons_of_mem _ h2)
    · rcases mem_dictInsert _ _ _ _ h2 with h3 | h3
      · exact Or.inl (by simp [h3])
      · exact Or.inr h3

/-- Every symbol-table write keys the element by its own simple name. -/
lemma symbolInsertions_key_eq (modules : List ModuleElement)
    (q : String × SymbolEntry) (hq : q ∈ symbolInsertions modules) :
    q.1 = entryName q.2 := by
  simp only [symbolInsertions, List.mem_flatten, List.mem_map] at hq
  obtain ⟨_, ⟨m, _, rfl⟩, hq⟩ := hq
  simp only [moduleInsertions, List.mem_append, List.mem_flatten, List.mem_map] at hq
  rcases hq with ⟨_, ⟨c, _, rfl⟩, hq⟩ | ⟨f, _, rfl⟩
  · simp only [classInsertions, List.mem_cons, List.mem_map] at hq
    rcases hq with rfl | ⟨mth, _, rfl⟩
    · simp [entryName]
    · simp [entryName]
  · simp [entryName]

/-- C6: the table `_build_symbol_table` builds is keyed by the elements'
simple qualified names, which are not globally unique: looking a key up
returns the **most recently indexed** entry with that name (the write
log searched from its end), so of two same-named declarations in
different modules only the last indexed remains reachable. -/
theorem buildSymbolTable_simpleKeys_lastWins (modules : List ModuleElement)
    (k : String) (p : String × SymbolEntry)
    (hp : p ∈ buildSymbolTable modules) :
    dictLookup k (buildSymbolTable modules) =
      ((symbolInsertions modules).reverse.find? (fun q => q.1 = k)).map Prod.snd ∧
    p.1 = entryName p.2 := by
  constructor
  · rw [buildSymbolTable, dictLookup_foldl_dictInsert]
    simp [dictLookup]
  · rcases mem_foldl_dictInsert _ _ _ hp with h | h
    · exact symbolInsertions_key_eq modules p h
    · simp at h

theorem buildSymbolTable_simpleKeys_lastWins_witness :
    dictLookup "x.run" (buildSymbolTable [moduleAlpha, moduleBeta]) =
      ((symbolInsertions [moduleAlpha, moduleBeta]).reverse.find?
        (fun q => q.1 = "x.run")).map Prod.snd ∧
    ("x.run", SymbolEntry.fn
      { name := "x.run", qualified_name := some "x.run", complexity := 2 }).1 =
      entryName ("x.run", SymbolEntry.fn
        { name := "x.run", qualified_name := some "x.run", complexity := 2 }).2 :=
  buildSymbolTable_simpleKeys_lastWins [moduleAlpha, moduleBeta] "x.run"
    ("x.run", SymbolEntry.fn
      { name := "x.run", qualified_name := some "x.run", complexity := 2 })
    (by decide)

/-! ## Claim C5 — what indexing and resolution mutate -/

/-- C5 as stated is false: the Indexer does **not** leave every field but
`resolved_name` untouched — `_build_symbol_table` overwrites each
element's `qualified_name` with its simple name, destroying the full
signature-carrying form the extractor stored.  The extracted function
`m.f` carries `qualified_name = m.f(x: int) -> Any`; after
`index_repository` it carries `m.f`. -/
theorem indexRepository_qualifiedName_counterexample :
    moduleM.functions.map (fun f => f.qualified_name) =
      [some "m.f(x: int) -> Any"] ∧
    (indexRepository (fun _ _ => []) [] [moduleM]).map
      (fun m => m.functions.map (fun f => f.qualified_name)) = [[some "m.f"]] ∧
    (some "m.f(x: int) -> Any" : Option String) ≠ some "m.f" := by
  refine ⟨?_, ?_, by decide⟩
  · simp [moduleM, parseFileOk, moduleStep, funcNodeF, parseFunction,
      PyNode.kind, PyNode.info, getAnnotationType, joinCommaSpace]
  · simp [indexRepository, moduleM, parseFileOk, moduleStep, funcNodeF,
      parseFunction, PyNode.kind, PyNode.info, getAnnotationType, joinCommaSpace,
      buildPhaseModule, buildPhaseFunction, buildPhaseClass,
      resolvePhaseModule, resolveFunctionCalls]

/-- C5 amended: after extraction, indexing and resolution leave every
module-level field and every function field unchanged **except** that
each element's `qualified_name` is overwritten with its simple name and
each function's `function_calls` list is replaced by the freshly
extracted call sites, on which `resolved_name` is written exactly once
with `_resolve_call`'s result. -/
theorem indexRepository_frame
    (extract : FunctionElement → ModuleElement → List FunctionCallElement)
    (bs st : List String) (modules : List ModuleElement)
    (m : ModuleElement) (f : FunctionElement) (c : ClassElement) :
    ((indexRepository extract bs modules).map
      (fun m => (m.name, m.language, m.imports, m.imports_mapping, m.error, m.body)) =
      modules.map
      (fun m => (m.name, m.language, m.imports, m.imports_mapping, m.error, m.body))) ∧
    ((resolveFunctionCalls extract bs st m (buildPhaseFunction f)).name = f.name ∧
     (resolveFunctionCalls extract bs st m (buildPhaseFunction f)).parameters = f.parameters ∧
     (resolveFunctionCalls extract bs st m (buildPhaseFunction f)).return_type = f.return_type ∧
     (resolveFunctionCalls extract bs st m (buildPhaseFunction f)).decorators = f.decorators ∧
     (resolveFunctionCalls extract bs st m (buildPhaseFunction f)).complexity = f.complexity ∧
     (resolveFunctionCalls extract bs st m (buildPhaseFunction f)).start_line = f.start_line ∧
     (resolveFunctionCalls extract bs st m (buildPhaseFunction f)).end_line = f.end_line ∧
     (resolveFunctionCalls extract bs st m (buildPhaseFunction f)).is_async = f.is_async ∧
     (resolveFunctionCalls extract bs st m (buildPhaseFunction f)).qualified_name = some f.name ∧
     (resolveFunctionCalls extract bs st m (buildPhaseFunction f)).function_calls =
       (extract (buildPhaseFunction f) m).map (fun call =>
         { call with resolved_name :=
             resolveCall bs st m.name m.imports_mapping call.name })) ∧
    ((buildPhaseClass c).name = c.name ∧
     (buildPhaseClass c).base_classes = c.base_classes ∧
     (buildPhaseClass c).decorators = c.decorators ∧
     (buildPhaseClass c).start_line = c.start_line ∧
     (buildPhaseClass c).end_line = c.end_line ∧
     (buildPhaseClass c).qualified_name = some c.name) := by
  refine ⟨?_, ⟨rfl, rfl, rfl, rfl, rfl, rfl, rfl, rfl, rfl, rfl⟩,
    rfl, rfl, rfl, rfl, rfl, rfl⟩
  simp [indexRepository, buildPhaseModule, resolvePhaseModule]

/-! ## Claim C9 — cycle-safe unrolling of A → B → A -/

/-- C9 (the unroller is modelled from §4.5 of the spec; its code is not
under src/): rendering entry `A` of the call graph `A → B → A` prints
`A`'s body exactly once, prints `B`'s body exactly once, and on reaching
the call back to `A` emits a single `(cycle)` marker with path
`A → B → A` and returns without recursing — any additional recursion
budget beyond the depth actually visited changes nothing, so the
rendering never recurses infinitely. -/
theorem unroll_cycleABA (m : Nat) :
    (unrollFuel tblABA 3 "A" []).countP (isBodyLineOf "A") = 1 ∧
    (unrollFuel tblABA 3 "A" []).countP (isBodyLineOf "B") = 1 ∧
    (unrollFuel tblABA 3 "A" []).countP isCycleMarker = 1 ∧
    (unrollFuel tblABA 3 "A" []).count (RenderEvent.cycleMarker ["A", "B", "A"]) = 1 ∧
    unrollFuel tblABA (m + 3) "A" [] = unrollFuel tblABA 3 "A" [] := by
  refine ⟨by decide, by decide, by decide, by decide, ?_⟩
  show unrollFuel tblABA (m + 2 + 1) "A" [] = _
  simp [unrollFuel, tblABA, dictLookup, cyclePath]

end RepoAsABook
